import Mathlib

/-!
Verification of the motor-vibration fault-detection core
(src/features.py and src/diagnostics.py) against its design document.

Numeric model: the Python code computes in IEEE doubles; here every
quantity that the code manipulates through rational arithmetic
(thresholds, penalties, confidences) is embedded as an exact rational
(`ℚ`), and the square-root based time-domain statistics of features.py
are embedded over the reals (`ℝ`, with `Real.sqrt`).
-/

/-- The fixed vocabulary of feature names produced by
`extract_fault_indicators` (features.py lines 120-148).  The Python keys
`1x_amplitude` and `2x_amplitude` cannot start with a digit in Lean and
are spelled `x1_amplitude` and `x2_amplitude`. -/
inductive FeatureName
  | rms
  | peak_to_peak
  | kurtosis
  | crest_factor
  | x1_amplitude
  | x2_amplitude
  | hf_energy
  | lf_energy
  | spectral_centroid
  | total_energy
deriving DecidableEq, Repr

/-- A feature dictionary: Python's `Dict[str, float]`, which may lack any
key.  `none` models an absent key. -/
def FeatureSet : Type := FeatureName → Option ℚ

/-- Python's `features.get(key, default)` (diagnostics.py lines 37-44,
110-113). -/
def FeatureSet.get (features : FeatureSet) (key : FeatureName) (default : ℚ) : ℚ :=
  (features key).getD default

/-- The closed fault enumeration of diagnostics.py lines 10-16. -/
inductive FaultType
  | NORMAL
  | IMBALANCE
  | MISALIGNMENT
  | BEARING
  | MULTIPLE
deriving DecidableEq, Repr

/-- The bearing weighted score of diagnostics.py lines 62-71: starts at
0.0 and accumulates 0.4 for kurtosis above 4.0, 0.3 for crest factor
above 6.0, 0.3 for high-frequency energy above 0.02 (defaults: kurtosis
3.0, the others 0). -/
def bearing_score (features : FeatureSet) : ℚ :=
  let b : ℚ := 0
  let b := if features.get .kurtosis 3 > 4 then b + 0.4 else b
  let b := if features.get .crest_factor 0 > 6 then b + 0.3 else b
  let b := if features.get .hf_energy 0 > 0.02 then b + 0.3 else b
  b

/-- The `fault_scores` dictionary of diagnostics.py lines 51, 58, 75: the
confidence each fault carries when it fires (a fault that does not fire
never has its entry read; the catch-all 0 is never consulted). -/
def fault_scores (features : FeatureSet) : FaultType → ℚ
  | .IMBALANCE => min 1 (features.get .x1_amplitude 0 / 0.8)
  | .MISALIGNMENT => min 1 (features.get .x2_amplitude 0 / 0.6)
  | .BEARING => min 1 (bearing_score features)
  | _ => 0

/-- The `detected_faults` list built by diagnostics.py lines 33-75, in
the fixed check order IMBALANCE, MISALIGNMENT, BEARING. -/
def detected_faults (features : FeatureSet) : List FaultType :=
  let detected : List FaultType := []
  let detected := if features.get .x1_amplitude 0 > 0.4 then detected ++ [FaultType.IMBALANCE] else detected
  let detected := if features.get .x2_amplitude 0 > 0.3 then detected ++ [FaultType.MISALIGNMENT] else detected
  if bearing_score features > 0.5 then detected ++ [FaultType.BEARING] else detected

/-- Python's `max` over a nonempty collection; the nil case (on which
Python raises) is unreachable at the call site in `detect_faults`. -/
def list_max : List ℚ → ℚ
  | [] => 0
  | a :: as => as.foldl max a

/-- `detect_faults` (diagnostics.py lines 19-89): returns the primary
fault, the list of detected faults, and the confidence, resolved by
lines 77-89 of the source (zero faults: NORMAL at 0.9; one fault: that
fault at its score; otherwise MULTIPLE at the maximum score). -/
def detect_faults (features : FeatureSet) : FaultType × List FaultType × ℚ :=
  match detected_faults features with
  | [] => (FaultType.NORMAL, [], 0.9)
  | [f] => (f, [f], fault_scores features f)
  | l => (FaultType.MULTIPLE, l, list_max (l.map (fault_scores features)))

/-- Python 3's builtin `round` on an exact value: nearest integer, ties
to the even integer (diagnostics.py line 167 `int(round(score))`). -/
def python_round (q : ℚ) : ℤ :=
  if q - ⌊q⌋ < 1/2 then ⌊q⌋
  else if 1/2 < q - ⌊q⌋ then ⌊q⌋ + 1
  else if ⌊q⌋ % 2 = 0 then ⌊q⌋ else ⌊q⌋ + 1

/-- `calculate_health_score` (diagnostics.py lines 92-167): sequential
penalties from 100.0, clamp to [0, 100], round to integer.  The
`fault_list` argument is part of the source signature but never read by
the body. -/
def calculate_health_score (features : FeatureSet) (fault_type : FaultType)
    (fault_list : List FaultType) (confidence : ℚ) : ℤ :=
  let score : ℚ := 100
  let rms_val := features.get .rms 0
  let kurtosis_val := features.get .kurtosis 3
  let crest_factor_val := features.get .crest_factor 0
  let total_energy := features.get .total_energy 0
  let score := if rms_val > 0.6 then score - 30 else if rms_val > 0.3 then score - 15 else score
  let score := if kurtosis_val > 8 then score - 20 else if kurtosis_val > 5 then score - 10 else score
  let score := if crest_factor_val > 8 then score - 15 else if crest_factor_val > 6 then score - 8 else score
  let score :=
    match fault_type with
    | .NORMAL => score
    | .IMBALANCE => score - 15 * confidence
    | .MISALIGNMENT => score - 20 * confidence
    | .BEARING => score - 35 * confidence
    | .MULTIPLE => score - 40
  let score := if total_energy > 0.5 then score - 10 else score
  let score := max 0 (min 100 score)
  python_round score

/-- Status labels returned by `_health_status`. -/
inductive HealthStatus
  | HEALTHY
  | ACCEPTABLE
  | WARNING
  | CRITICAL
deriving DecidableEq, Repr

/-- `_health_status` (diagnostics.py lines 209-218). -/
def health_status (score : ℤ) : HealthStatus :=
  if score ≥ 85 then .HEALTHY
  else if score ≥ 70 then .ACCEPTABLE
  else if score ≥ 50 then .WARNING
  else .CRITICAL

/-- `spectral_energy` (features.py lines 69-75): sum of squared
magnitudes at the bins whose frequency lies in `[f_low, f_high]`; the
frequency/magnitude sequences are parallel, mirrored by zipping. -/
def spectral_energy (freqs mags : List ℚ) (f_low f_high : ℚ) : ℚ :=
  (((freqs.zip mags).filter (fun p => decide (f_low ≤ p.1) && decide (p.1 ≤ f_high))).map
    (fun p => p.2 ^ 2)).sum

/-- `peak_frequency_amplitude` (features.py lines 77-93): maximum
magnitude at the bins whose frequency lies within
`[f_center - bandwidth, f_center + bandwidth]`; 0 when the window holds
no bin. -/
def peak_frequency_amplitude (freqs mags : List ℚ) (f_center bandwidth : ℚ) : ℚ :=
  let f_low := f_center - bandwidth
  let f_high := f_center + bandwidth
  match ((freqs.zip mags).filter (fun p => decide (f_low ≤ p.1) && decide (p.1 ≤ f_high))).map
      (fun p => p.2) with
  | [] => 0
  | m :: ms => ms.foldl max m

/-- The frequency bins `compute_fft` pairs with the magnitudes
(features.py line 62): `np.fft.rfftfreq(N, d=1/fs)`, i.e. the sequence
`k * fs / N` for `k = 0 .. N/2`. -/
def rfftfreq (n : ℕ) (fs : ℚ) : List ℚ :=
  (List.range (n / 2 + 1)).map (fun k => k * fs / n)

/-- `np.mean` over a real list (0/0 on the empty list; numpy returns
NaN there, a case the theorems below never rely on). -/
noncomputable def np_mean (x : List ℝ) : ℝ := x.sum / x.length

/-- `np.std` (population standard deviation), as `kurtosis`
(features.py line 29) uses it. -/
noncomputable def np_std (x : List ℝ) : ℝ :=
  Real.sqrt (np_mean (x.map (fun a => (a - np_mean x) ^ 2)))

/-- `rms` (features.py lines 6-12). -/
noncomputable def rms (x : List ℝ) : ℝ :=
  Real.sqrt (np_mean (x.map (fun a => a ^ 2)))

/-- `kurtosis` (features.py lines 21-33): 0 by explicit guard when the
standard deviation is 0, otherwise the mean fourth power of the
standardized samples. -/
noncomputable def kurtosis (x : List ℝ) : ℝ :=
  if np_std x = 0 then 0
  else np_mean (x.map (fun a => ((a - np_mean x) / np_std x) ^ 4))

/-- Python's `max` over a nonempty real collection (`np.max`). -/
noncomputable def list_max_r : List ℝ → ℝ
  | [] => 0
  | a :: as => as.foldl max a

/-- `crest_factor` (features.py lines 35-45): 0 by explicit guard when
`rms` is 0, otherwise peak absolute amplitude over `rms`. -/
noncomputable def crest_factor (x : List ℝ) : ℝ :=
  if rms x = 0 then 0
  else list_max_r (x.map (fun a => |a|)) / rms x


lemma detect_faults_nil (f : FeatureSet) (h : detected_faults f = []) :
    detect_faults f = (FaultType.NORMAL, [], 0.9) := by
  simp [detect_faults, h]

lemma detect_faults_single (f : FeatureSet) (ft : FaultType) (h : detected_faults f = [ft]) :
    detect_faults f = (ft, [ft], fault_scores f ft) := by
  simp [detect_faults, h]

lemma detect_faults_multi (f : FeatureSet) (a b : FaultType) (l : List FaultType)
    (h : detected_faults f = a :: b :: l) :
    detect_faults f = (FaultType.MULTIPLE, a :: b :: l,
      list_max ((a :: b :: l).map (fault_scores f))) := by
  simp [detect_faults, h]

lemma detect_faults_list (f : FeatureSet) : (detect_faults f).2.1 = detected_faults f := by
  rcases h : detected_faults f with _ | ⟨a, _ | ⟨b, l⟩⟩
  · rw [detect_faults_nil f h]
  · rw [detect_faults_single f a h]
  · rw [detect_faults_multi f a b l h]

lemma mem_detected_imbalance (f : FeatureSet) :
    FaultType.IMBALANCE ∈ detected_faults f ↔ f.get FeatureName.x1_amplitude 0 > 0.4 := by
  unfold detected_faults
  split_ifs with h1 h2 h3 <;> simp_all

lemma mem_detected_misalignment (f : FeatureSet) :
    FaultType.MISALIGNMENT ∈ detected_faults f ↔ f.get FeatureName.x2_amplitude 0 > 0.3 := by
  unfold detected_faults
  split_ifs with h1 h2 h3 <;> simp_all

lemma mem_detected_bearing (f : FeatureSet) :
    FaultType.BEARING ∈ detected_faults f ↔ bearing_score f > 0.5 := by
  unfold detected_faults
  split_ifs with h1 h2 h3 <;> simp_all

lemma bearing_score_eq (f : FeatureSet) :
    bearing_score f =
      (if f.get FeatureName.kurtosis 3 > 4 then (0.4 : ℚ) else 0)
      + (if f.get FeatureName.crest_factor 0 > 6 then (0.3 : ℚ) else 0)
      + (if f.get FeatureName.hf_energy 0 > 0.02 then (0.3 : ℚ) else 0) := by
  unfold bearing_score
  split_ifs <;> ring

/-- Claim C3: the primary fault and confidence returned by `detect_faults` are
resolved from the fired-fault list: zero faults fired gives NORMAL with
confidence exactly 0.9; exactly one fault fired gives that fault with its
computed score; two or more give MULTIPLE with the maximum of the fired
faults' scores. -/
theorem detect_faults_resolution (f : FeatureSet) :
    ((detect_faults f).2.1 = [] →
      (detect_faults f).1 = FaultType.NORMAL ∧ (detect_faults f).2.2 = 0.9)
  ∧ (∀ ft : FaultType, (detect_faults f).2.1 = [ft] →
      (detect_faults f).1 = ft ∧ (detect_faults f).2.2 = fault_scores f ft)
  ∧ (2 ≤ (detect_faults f).2.1.length →
      (detect_faults f).1 = FaultType.MULTIPLE ∧
      (detect_faults f).2.2 = list_max ((detect_faults f).2.1.map (fault_scores f))) := by
  rcases h : detected_faults f with _ | ⟨a, _ | ⟨b, l⟩⟩
  · rw [detect_faults_nil f h]; simp
  · rw [detect_faults_single f a h]; simp
  · rw [detect_faults_multi f a b l h]; simp

/-- Claim C1: `detect_faults` fires IMBALANCE exactly when `1x_amplitude`
is strictly greater than 0.4 (so at exactly 0.4 it does not fire), with
confidence `min 1 (1x_amplitude / 0.8)` when it is the one fired fault, and
fires MISALIGNMENT exactly when `2x_amplitude` is strictly greater than 0.3,
with confidence `min 1 (2x_amplitude / 0.6)` when it is the one fired
fault. -/
theorem imbalance_misalignment_rules (f : FeatureSet) :
    (FaultType.IMBALANCE ∈ (detect_faults f).2.1 ↔ f.get FeatureName.x1_amplitude 0 > 0.4)
  ∧ ((detect_faults f).2.1 = [FaultType.IMBALANCE] →
      (detect_faults f).2.2 = min 1 (f.get FeatureName.x1_amplitude 0 / 0.8))
  ∧ (FaultType.MISALIGNMENT ∈ (detect_faults f).2.1 ↔ f.get FeatureName.x2_amplitude 0 > 0.3)
  ∧ ((detect_faults f).2.1 = [FaultType.MISALIGNMENT] →
      (detect_faults f).2.2 = min 1 (f.get FeatureName.x2_amplitude 0 / 0.6)) := by
  rw [detect_faults_list]
  refine ⟨mem_detected_imbalance f, fun h => ?_, mem_detected_misalignment f, fun h => ?_⟩
  · rw [detect_faults_single f _ h]; rfl
  · rw [detect_faults_single f _ h]; rfl

/-- Claim C2: `detect_faults` fires BEARING exactly when
`0.4*[kurtosis > 4] + 0.3*[crest_factor > 6] + 0.3*[hf_energy > 0.02]`
(each bracket 1 when the strict inequality holds, else 0) is strictly
greater than 0.5, and the BEARING confidence is that sum clamped to at
most 1. -/
theorem bearing_rule (f : FeatureSet) :
    (FaultType.BEARING ∈ (detect_faults f).2.1 ↔
      0.5 < (if f.get FeatureName.kurtosis 3 > 4 then (0.4 : ℚ) else 0)
          + (if f.get FeatureName.crest_factor 0 > 6 then (0.3 : ℚ) else 0)
          + (if f.get FeatureName.hf_energy 0 > 0.02 then (0.3 : ℚ) else 0))
  ∧ ((detect_faults f).2.1 = [FaultType.BEARING] →
      (detect_faults f).2.2 =
        min 1 ((if f.get FeatureName.kurtosis 3 > 4 then (0.4 : ℚ) else 0)
          + (if f.get FeatureName.crest_factor 0 > 6 then (0.3 : ℚ) else 0)
          + (if f.get FeatureName.hf_energy 0 > 0.02 then (0.3 : ℚ) else 0))) := by
  rw [detect_faults_list]
  constructor
  · rw [mem_detected_bearing, bearing_score_eq]
  · intro h
    rw [detect_faults_single f _ h]
    show min 1 (bearing_score f) = _
    rw [bearing_score_eq]

lemma le_foldl_max (as : List ℚ) (a : ℚ) : a ≤ as.foldl max a := by
  induction as generalizing a with
  | nil => exact le_refl a
  | cons x xs ih => exact le_trans (le_max_left a x) (ih (max a x))

lemma foldl_max_le (as : List ℚ) (a b : ℚ) (ha : a ≤ b) (h : ∀ x ∈ as, x ≤ b) :
    as.foldl max a ≤ b := by
  induction as generalizing a with
  | nil => exact ha
  | cons x xs ih =>
    exact ih (max a x) (max_le ha (h x (List.mem_cons_self x xs)))
      (fun y hy => h y (List.mem_cons_of_mem x hy))

lemma fault_scores_fired_bounds (f : FeatureSet) :
    ∀ ft ∈ detected_faults f, 0 ≤ fault_scores f ft ∧ fault_scores f ft ≤ 1 := by
  intro ft h
  cases ft with
  | NORMAL => exfalso; unfold detected_faults at h; split_ifs at h <;> simp_all
  | MULTIPLE => exfalso; unfold detected_faults at h; split_ifs at h <;> simp_all
  | IMBALANCE =>
    rw [mem_detected_imbalance] at h
    exact ⟨le_min (by norm_num) (div_nonneg (by linarith) (by norm_num)), min_le_left _ _⟩
  | MISALIGNMENT =>
    rw [mem_detected_misalignment] at h
    exact ⟨le_min (by norm_num) (div_nonneg (by linarith) (by norm_num)), min_le_left _ _⟩
  | BEARING =>
    rw [mem_detected_bearing] at h
    exact ⟨le_min (by norm_num) (by linarith), min_le_left _ _⟩

/-- Claim C9: for every feature mapping, the confidence returned by
`detect_faults` lies in the closed interval [0, 1]. -/
theorem detect_confidence_bounds (f : FeatureSet) :
    0 ≤ (detect_faults f).2.2 ∧ (detect_faults f).2.2 ≤ 1 := by
  rcases h : detected_faults f with _ | ⟨a, _ | ⟨b, l⟩⟩
  · rw [detect_faults_nil f h]; norm_num
  · rw [detect_faults_single f a h]
    exact fault_scores_fired_bounds f a (by rw [h]; exact List.mem_cons_self a [])
  · rw [detect_faults_multi f a b l h]
    have hmem : ∀ ft ∈ a :: b :: l, 0 ≤ fault_scores f ft ∧ fault_scores f ft ≤ 1 := by
      intro ft hft
      exact fault_scores_fired_bounds f ft (by rw [h]; exact hft)
    constructor
    · exact le_trans (hmem a (List.mem_cons_self a _)).1
        (le_foldl_max ((b :: l).map (fault_scores f)) (fault_scores f a))
    · refine foldl_max_le _ _ _ (hmem a (List.mem_cons_self a _)).2 ?_
      intro x hx
      rcases List.mem_map.mp hx with ⟨ft, hft, rfl⟩
      exact (hmem ft (List.mem_cons_of_mem a hft)).2

set_option maxHeartbeats 1000000 in
/-- Claim C4: `calculate_health_score` equals the sum of independent
penalties taken from 100 (RMS 30/15, kurtosis 20/10, crest factor 15/8,
the fault-type penalty with MULTIPLE a fixed 40 regardless of confidence,
and 10 for total energy above 0.5), clamped to [0, 100] and rounded to the
nearest integer (ties to even, Python's `round`). -/
theorem health_score_formula (f : FeatureSet) (ft : FaultType) (fl : List FaultType) (c : ℚ) :
    calculate_health_score f ft fl c =
      python_round (max 0 (min 100 ((100 : ℚ)
        - (if f.get FeatureName.rms 0 > 0.6 then (30 : ℚ)
            else if f.get FeatureName.rms 0 > 0.3 then 15 else 0)
        - (if f.get FeatureName.kurtosis 3 > 8 then (20 : ℚ)
            else if f.get FeatureName.kurtosis 3 > 5 then 10 else 0)
        - (if f.get FeatureName.crest_factor 0 > 8 then (15 : ℚ)
            else if f.get FeatureName.crest_factor 0 > 6 then 8 else 0)
        - (match ft with
            | FaultType.NORMAL => 0
            | FaultType.IMBALANCE => 15 * c
            | FaultType.MISALIGNMENT => 20 * c
            | FaultType.BEARING => 35 * c
            | FaultType.MULTIPLE => 40)
        - (if f.get FeatureName.total_energy 0 > 0.5 then (10 : ℚ) else 0)))) := by
  cases ft <;> simp only [calculate_health_score] <;> split_ifs <;> ring_nf

/-- Claim C6: the status label is a function of the integer health score
alone, with non-overlapping breakpoints evaluated top-down: at least 85
gives HEALTHY, otherwise at least 70 gives ACCEPTABLE, otherwise at least
50 gives WARNING, otherwise CRITICAL. -/
theorem health_status_breakpoints (s : ℤ) :
    (85 ≤ s → health_status s = HealthStatus.HEALTHY)
  ∧ (70 ≤ s ∧ s < 85 → health_status s = HealthStatus.ACCEPTABLE)
  ∧ (50 ≤ s ∧ s < 70 → health_status s = HealthStatus.WARNING)
  ∧ (s < 50 → health_status s = HealthStatus.CRITICAL) := by
  refine ⟨fun h => ?_, fun h => ?_, fun h => ?_, fun h => ?_⟩ <;>
    unfold health_status <;> split_ifs <;> first | rfl | omega

/-- Claim C10: the result of `calculate_health_score` does not depend on
its `fault_list` argument: calls that agree on features, fault type and
confidence return equal scores for arbitrary different fault lists. -/
theorem health_score_ignores_fault_list (f : FeatureSet) (ft : FaultType) (c : ℚ)
    (fl1 fl2 : List FaultType) :
    calculate_health_score f ft fl1 c = calculate_health_score f ft fl2 c := rfl

/-- Claim C5 (evidence of the code bug): `diagnose_vibration` validates
nothing, so with sampling rate -1000 and 4 samples the frequency bins are
all non-positive and every window/band feature silently evaluates to 0 for
any magnitudes — the pipeline returns a report instead of failing fast. -/
theorem negative_fs_silent_features :
    peak_frequency_amplitude (rfftfreq 4 (-1000)) [1, 1, 1] 30 2 = 0
  ∧ peak_frequency_amplitude (rfftfreq 4 (-1000)) [1, 1, 1] 60 2 = 0
  ∧ spectral_energy (rfftfreq 4 (-1000)) [1, 1, 1] 100 (-500) = 0 := by
  have h : rfftfreq 4 (-1000) = [0, -250, -500] := by norm_num [rfftfreq, List.range_succ]
  refine ⟨?_, ?_, ?_⟩
  · rw [peak_frequency_amplitude, h]; norm_num [List.zip, List.zipWith, List.filter]
  · rw [peak_frequency_amplitude, h]; norm_num [List.zip, List.zipWith, List.filter]
  · rw [spectral_energy, h]; norm_num [List.zip, List.zipWith, List.filter]

lemma np_mean_const (x : List ℝ) (c : ℝ) (hne : x ≠ []) (h : ∀ a ∈ x, a = c) :
    np_mean x = c := by
  unfold np_mean
  rw [List.sum_eq_card_nsmul x c h, nsmul_eq_mul]
  have hx : (x.length : ℝ) ≠ 0 :=
    Nat.cast_ne_zero.mpr (fun h0 => hne (List.length_eq_zero.mp h0))
  field_simp

lemma np_mean_zero (x : List ℝ) (h : ∀ a ∈ x, a = 0) : np_mean x = 0 := by
  unfold np_mean
  rw [List.sum_eq_zero h, zero_div]

lemma np_std_const (x : List ℝ) (c : ℝ) (h : ∀ a ∈ x, a = c) : np_std x = 0 := by
  unfold np_std
  rcases eq_or_ne x [] with rfl | hne
  · simp [np_mean]
  · have hmean := np_mean_const x c hne h
    have hz : ∀ b ∈ x.map (fun a => (a - np_mean x) ^ 2), b = 0 := by
      intro b hb
      rcases List.mem_map.mp hb with ⟨a, ha, rfl⟩
      rw [hmean, h a ha]
      ring
    rw [np_mean_zero _ hz, Real.sqrt_zero]

lemma rms_of_zero (x : List ℝ) (h : ∀ a ∈ x, a = 0) : rms x = 0 := by
  unfold rms
  have hz : ∀ b ∈ x.map (fun a => a ^ 2), b = 0 := by
    intro b hb
    rcases List.mem_map.mp hb with ⟨a, ha, rfl⟩
    rw [h a ha]
    ring
  rw [np_mean_zero _ hz, Real.sqrt_zero]

/-- Claim C7: for every constant signal the population standard deviation
is 0 and `kurtosis` returns 0 by its explicit guard rather than dividing by
zero; whenever `rms` is 0 `crest_factor` returns 0 by its explicit guard,
and the all-zero signal indeed has `rms` 0. -/
theorem zero_variance_guards :
    (∀ (x : List ℝ) (c : ℝ), (∀ a ∈ x, a = c) → np_std x = 0 ∧ kurtosis x = 0)
  ∧ (∀ x : List ℝ, rms x = 0 → crest_factor x = 0)
  ∧ (∀ x : List ℝ, (∀ a ∈ x, a = 0) → rms x = 0 ∧ crest_factor x = 0) := by
  have hcrest : ∀ x : List ℝ, rms x = 0 → crest_factor x = 0 := by
    intro x hx
    unfold crest_factor
    rw [if_pos hx]
  refine ⟨fun x c h => ⟨np_std_const x c h, ?_⟩, hcrest, fun x h => ?_⟩
  · unfold kurtosis
    rw [if_pos (np_std_const x c h)]
  · exact ⟨rms_of_zero x h, hcrest x (rms_of_zero x h)⟩

lemma foldl_max_mem (as : List ℚ) (a : ℚ) : as.foldl max a ∈ a :: as := by
  induction as generalizing a with
  | nil => exact List.mem_cons_self a []
  | cons x xs ih =>
    rw [List.foldl_cons]
    rcases List.mem_cons.mp (ih (max a x)) with h | h
    · rw [h]
      rcases max_choice a x with h2 | h2 <;> rw [h2]
      · exact List.mem_cons_self _ _
      · exact List.mem_cons_of_mem _ (List.mem_cons_self _ _)
    · exact List.mem_cons_of_mem _ (List.mem_cons_of_mem _ h)

lemma le_foldl_max_of_mem (as : List ℚ) (a b : ℚ) (hb : b ∈ a :: as) :
    b ≤ as.foldl max a := by
  induction as generalizing a with
  | nil =>
    rw [List.mem_singleton] at hb
    rw [hb]
    exact le_refl a
  | cons x xs ih =>
    rw [List.foldl_cons]
    rcases List.mem_cons.mp hb with rfl | hb2
    · exact le_trans (le_max_left b x) (le_foldl_max xs (max b x))
    · rcases List.mem_cons.mp hb2 with rfl | hb3
      · exact le_trans (le_max_right a b) (le_foldl_max xs (max a b))
      · exact ih (max a x) (List.mem_cons_of_mem _ hb3)

lemma mem_window_mags (freqs mags : List ℚ) (fc bw : ℚ) (h : freqs.length = mags.length)
    (b : ℚ) :
    (b ∈ ((freqs.zip mags).filter
        (fun p => decide (fc - bw ≤ p.1) && decide (p.1 ≤ fc + bw))).map (fun p => p.2)) ↔
    ∃ i, ∃ hi : i < freqs.length,
      (fc - bw ≤ freqs[i] ∧ freqs[i] ≤ fc + bw) ∧ b = mags[i] := by
  have hlen : (freqs.zip mags).length = freqs.length := by
    rw [List.length_zip freqs mags, h, min_self]
  rw [List.mem_map]
  constructor
  · rintro ⟨pr, hpr, rfl⟩
    rw [List.mem_filter] at hpr
    obtain ⟨hz, hp⟩ := hpr
    simp only [Bool.and_eq_true, decide_eq_true_eq] at hp
    rcases List.mem_iff_getElem.mp hz with ⟨i, hi, hig⟩
    have hif : i < freqs.length := by omega
    have him : i < mags.length := by omega
    have hpair : pr = (freqs[i], mags[i]) := by
      rw [← hig]
      exact List.getElem_zip
    refine ⟨i, hif, ?_, ?_⟩
    · rw [hpair] at hp
      exact hp
    · rw [hpair]
  · rintro ⟨i, hi, hw, rfl⟩
    have him : i < mags.length := by omega
    refine ⟨(freqs[i], mags[i]), ?_, rfl⟩
    rw [List.mem_filter]
    refine ⟨List.mem_iff_getElem.mpr ⟨i, by omega, List.getElem_zip⟩, ?_⟩
    simp only [Bool.and_eq_true, decide_eq_true_eq]
    exact hw

/-- Claim C8: for parallel frequency/magnitude sequences,
`peak_frequency_amplitude` returns 0 when no bin's frequency lies within
`[f_center - bandwidth, f_center + bandwidth]` (bounds inclusive), and
otherwise returns the maximum magnitude among the bins in that window
(it is the magnitude of some in-window bin and bounds every in-window
magnitude from above). -/
theorem peak_window_max (freqs mags : List ℚ) (fc bw : ℚ) (h : freqs.length = mags.length) :
    ((∀ i, (hi : i < freqs.length) → ¬(fc - bw ≤ freqs[i] ∧ freqs[i] ≤ fc + bw)) →
      peak_frequency_amplitude freqs mags fc bw = 0)
  ∧ ((∃ i, ∃ hi : i < freqs.length, fc - bw ≤ freqs[i] ∧ freqs[i] ≤ fc + bw) →
      (∃ i, ∃ hi : i < freqs.length,
        (fc - bw ≤ freqs[i] ∧ freqs[i] ≤ fc + bw) ∧
        peak_frequency_amplitude freqs mags fc bw = mags[i]) ∧
      (∀ i, (hi : i < freqs.length) → (fc - bw ≤ freqs[i] ∧ freqs[i] ≤ fc + bw) →
        mags[i] ≤ peak_frequency_amplitude freqs mags fc bw)) := by
  constructor
  · intro hnone
    have hempty : ((freqs.zip mags).filter
        (fun p => decide (fc - bw ≤ p.1) && decide (p.1 ≤ fc + bw))).map (fun p => p.2) = [] := by
      rw [List.eq_nil_iff_forall_not_mem]
      intro b hb
      rcases (mem_window_mags freqs mags fc bw h b).mp hb with ⟨i, hi, hw, _⟩
      exact hnone i hi hw
    simp only [peak_frequency_amplitude]
    rw [hempty]
  · rintro ⟨j, hj, hwj⟩
    have hmem : mags[j] ∈ ((freqs.zip mags).filter
        (fun p => decide (fc - bw ≤ p.1) && decide (p.1 ≤ fc + bw))).map (fun p => p.2) :=
      (mem_window_mags freqs mags fc bw h _).mpr ⟨j, hj, hwj, rfl⟩
    rcases hm : ((freqs.zip mags).filter
        (fun p => decide (fc - bw ≤ p.1) && decide (p.1 ≤ fc + bw))).map (fun p => p.2) with
      _ | ⟨m, ms⟩
    · rw [hm] at hmem
      exact absurd hmem (List.not_mem_nil _)
    · have hpeak : peak_frequency_amplitude freqs mags fc bw = ms.foldl max m := by
        simp only [peak_frequency_amplitude]
        rw [hm]
      constructor
      · have hin : ms.foldl max m ∈ m :: ms := foldl_max_mem ms m
        rw [← hm] at hin
        rcases (mem_window_mags freqs mags fc bw h _).mp hin with ⟨i, hi, hw, heq⟩
        exact ⟨i, hi, hw, by rw [hpeak, heq]⟩
      · intro i hi hw
        have hmi : mags[i] ∈ ((freqs.zip mags).filter
            (fun p => decide (fc - bw ≤ p.1) && decide (p.1 ≤ fc + bw))).map (fun p => p.2) :=
          (mem_window_mags freqs mags fc bw h _).mpr ⟨i, hi, hw, rfl⟩
        rw [hm] at hmi
        rw [hpeak]
        exact le_foldl_max_of_mem ms m _ hmi

/-- Witness for claim C8 at a concrete input: with bins 0, 10, 20 Hz and
magnitudes 1, 5, 2, the peak in the window [8, 12] is 5, and the theorem
applied at this input bounds the in-window magnitude 5 by the result. -/
theorem peak_window_max_witness :
    peak_frequency_amplitude [0, 10, 20] [1, 5, 2] 10 2 = 5 ∧
    (5 : ℚ) ≤ peak_frequency_amplitude [0, 10, 20] [1, 5, 2] 10 2 := by
  have hc : peak_frequency_amplitude [0, 10, 20] [1, 5, 2] 10 2 = 5 := by
    rw [peak_frequency_amplitude]
    norm_num [List.zip, List.zipWith, List.filter]
  refine ⟨hc, ?_⟩
  have H := (peak_window_max [0, 10, 20] [1, 5, 2] 10 2 rfl).2
    ⟨1, by norm_num, by norm_num, by norm_num⟩
  have hb := H.2 1 (by norm_num) ⟨by norm_num, by norm_num⟩
  simpa using hb
